import Mathlib

set_option maxRecDepth 8192

set_option linter.unusedVariables false

/-! Verification of the runtime scanning layer of a Rust binding to the
Hyperscan regular-expression engine (`src/runtime.rs`): scratch-space
lifecycle, the match-event callback bridge, block/vectored scanning and the
stream engine.  The native engine entry points (`hs_scan`,
`hs_alloc_scratch`, ...) and the repository's `errors`/`common` modules are
not part of the scanned source; they are modelled from the specification,
while the wrapper layer is translated from `src/runtime.rs`. -/

/-- A match event: the transient (pattern id, from, to, flags) tuple the
engine hands to the match callback during a scan. -/
structure MatchEvent where
  id : Nat
  frm : Nat
  upTo : Nat
  flags : Nat
deriving DecidableEq, Repr

/-- Modelled from the spec: the repository's error taxonomy (its `errors`
module is not under the scanned source).  `ScanTerminated` is the deliberate
early stop requested by the callback; the others are engine faults surfaced
to the caller as recoverable values. -/
inductive Error where
  | Invalid
  | NoMem
  | ScanTerminated
  | Failed (code : Int)
deriving DecidableEq, Repr

def HS_SUCCESS : Int := 0

def HS_INVALID : Int := -1

def HS_NOMEM : Int := -2

def HS_SCAN_TERMINATED : Int := -3

/-- Modelled from the spec: the mapping from a non-zero native return code
to the repository's error type (the `check_hs_error!` macro and the error
conversion live outside the scanned source). -/
def hsErrorOf (code : Int) : Error :=
  if code = HS_INVALID then Error.Invalid
  else if code = HS_NOMEM then Error.NoMem
  else if code = HS_SCAN_TERMINATED then Error.ScanTerminated
  else Error.Failed code

/-- Modelled from the spec: `check_hs_error!` turns a native return code
into a recoverable result: zero is success, anything else an error value
returned to the caller. -/
def check_hs_error (code : Int) : Except Error Unit :=
  if code = HS_SUCCESS then Except.ok () else Except.error (hsErrorOf code)

/-- Tri-valued outcome separating a recoverable error value from a
process-level abort, used to state how the wrapper surfaces failures. -/
inductive Outcome (α : Type) where
  | ok (value : α)
  | err (e : Error)
  | abort

/-- Modelled from the spec: `assert_hs_error!` aborts the process on any
non-zero native return code instead of returning an error value. -/
def assert_hs_error (code : Int) : Outcome Unit :=
  if code = HS_SUCCESS then Outcome.ok () else Outcome.abort

/-- Modelled from the spec: a compiled pattern database is an opaque,
immutable automaton produced by the external compilation layer (the
repository's `common` module is not under the scanned source).  The scratch
manager only needs its scratch requirement, a strictly positive byte
count. -/
structure Database where
  scratchReq : Nat
  scratchReq_pos : 0 < scratchReq

/-- Modelled from the spec: a block-mode database; `matches data` is the
list of matches the engine discovers, in discovery order, when scanning
`data` as a single block. -/
structure BlockDatabase extends Database where
  matchesOf : List Nat → List MatchEvent

/-- Modelled from the spec: a vectored-mode database; `matches` is computed
over the logical concatenation of the supplied buffers. -/
structure VectoredDatabase extends Database where
  matchesOf : List Nat → List MatchEvent

/-- Modelled from the spec: a streaming-mode database; `streamMatches hist
chunk` lists the matches delivered while scanning `chunk` after the stream
has already seen `hist`, and `pending hist` the matches flushed when the
stream is reset or closed. -/
structure StreamingDatabase extends Database where
  streamMatches : List Nat → List Nat → List MatchEvent
  pending : List Nat → List MatchEvent

/-- Lookup in an association list of engine handles. -/
def findAssoc {α : Type} (k : Nat) : List (Nat × α) → Option α
  | [] => none
  | p :: rest => if p.1 = k then some p.2 else findAssoc k rest

/-- Update the value stored for a live handle. -/
def setAssoc {α : Type} (k : Nat) (v : α) : List (Nat × α) → List (Nat × α)
  | [] => []
  | p :: rest => if p.1 = k then (k, v) :: rest else p :: setAssoc k v rest

/-- Remove a handle from the table. -/
def removeAssoc {α : Type} (k : Nat) : List (Nat × α) → List (Nat × α)
  | [] => []
  | p :: rest => if p.1 = k then removeAssoc k rest else p :: removeAssoc k rest

/-- Modelled from the spec: the native engine's view of the live resources —
each live scratch handle with its allocated byte size, and each live stream
handle with its database and the byte history fed so far.  Fresh handles are
drawn from `nextHandle`. -/
structure EngineState where
  scratches : List (Nat × Nat)
  streams : List (Nat × (StreamingDatabase × List Nat))
  nextHandle : Nat

/-- Well-formedness of the engine state: every live handle was drawn from
the handle supply. -/
def EngineState.WF (st : EngineState) : Prop :=
  (∀ p ∈ st.scratches, p.1 < st.nextHandle) ∧
  (∀ p ∈ st.streams, p.1 < st.nextHandle)

/-- The caller-facing match callback type from the source:
`Fn(u32, u64, u64, u32) -> bool`. -/
def MatchEventCallback : Type := Nat → Nat → Nat → Nat → Bool

def TRUE : Int := 1

def FALSE : Int := 0

/-- Application of a caller callback to the fields of a match event, exactly
as the source's `match_event_callback` applies it. -/
def cbHit (callback : MatchEventCallback) (e : MatchEvent) : Bool :=
  callback e.id e.frm e.upTo e.flags

/-- The native-ABI adapter from the source: forwards the event fields to the
caller's predicate and converts the returned bool to the raw integers `TRUE`
and `FALSE`. -/
def match_event_callback (callback : MatchEventCallback) (e : MatchEvent) : Int :=
  if cbHit callback e then TRUE else FALSE

/-- The source's `wrap_match_event_handler!`: a missing caller callback
becomes a null native handler and a null context; a present one is adapted
by `match_event_callback`. -/
def wrap_match_event_handler (handler : Option MatchEventCallback) :
    Option (MatchEvent → Int) :=
  handler.map match_event_callback

/-- Modelled from the spec and the repository's own tests: the engine
invokes the native handler once per discovered match, in discovery order,
within the call; a non-zero handler return halts matching at once and the
call reports `HS_SCAN_TERMINATED`; a null handler is never invoked and the
scan runs to completion.  The second component records the invocations
actually made. -/
def hsDeliver (handler : Option (MatchEvent → Int)) :
    List MatchEvent → Int × List MatchEvent
  | [] => (HS_SUCCESS, [])
  | e :: rest =>
    match handler with
    | none => (HS_SUCCESS, [])
    | some h =>
      if h e = 0 then
        ((hsDeliver handler rest).1, e :: (hsDeliver handler rest).2)
      else
        (HS_SCAN_TERMINATED, [e])

/-- The `usize` to `u32` cast the wrapper applies to every buffer length. -/
def u32cast (n : Nat) : Nat := n % 2 ^ 32

/-- Modelled from the spec: `hs_scan` (external engine call) runs the block
automaton over the first `length` bytes of `data` and delivers the
discovered matches through the handler. -/
def hs_scan (db : BlockDatabase) (data : List Nat) (length : Nat)
    (handler : Option (MatchEvent → Int)) : Int × List MatchEvent :=
  hsDeliver handler (db.matchesOf (data.take length))

/-- Modelled from the spec: `hs_scan_vector` (external engine call) consumes
the first `count` (pointer, length) pairs of the supplied arrays, treats
those buffers, each cut to its declared length, in the supplied order as one
logical contiguous stream, and delivers the matches discovered over that
concatenation. -/
def hs_scan_vector (db : VectoredDatabase) (bufs : List (List Nat))
    (lens : List Nat) (count : Nat) (handler : Option (MatchEvent → Int)) :
    Int × List MatchEvent :=
  hsDeliver handler
    (db.matchesOf ((((bufs.zip lens).take count).map fun bl => bl.1.take bl.2).flatten))

/-- Modelled from the spec: `hs_alloc_scratch` (external engine call) sizes
a fresh region sufficient for the database when handed a null handle, and
grows a live one in place so it is sufficient, never shrinking it. -/
def hs_alloc_scratch (db : Database) (s : Option Nat) (st : EngineState) :
    Int × EngineState × Nat :=
  match s with
  | none =>
    (HS_SUCCESS,
     ⟨(st.nextHandle, db.scratchReq) :: st.scratches, st.streams, st.nextHandle + 1⟩,
     st.nextHandle)
  | some h =>
    match findAssoc h st.scratches with
    | none => (HS_INVALID, st, h)
    | some sz =>
      (HS_SUCCESS,
       ⟨setAssoc h (max sz db.scratchReq) st.scratches, st.streams, st.nextHandle⟩,
       h)

/-- Modelled from the spec: `hs_scratch_size` (external engine call) reports
the current byte footprint of a live scratch region; it has no side
effect. -/
def hs_scratch_size (h : Nat) (st : EngineState) : (Int × Nat) × EngineState :=
  match findAssoc h st.scratches with
  | none => ((HS_INVALID, 0), st)
  | some sz => ((HS_SUCCESS, sz), st)

/-- Modelled from the spec: `hs_clone_scratch` (external engine call)
allocates a fresh independent region of the same capacity. -/
def hs_clone_scratch (h : Nat) (st : EngineState) : Int × EngineState × Nat :=
  match findAssoc h st.scratches with
  | none => (HS_INVALID, st, 0)
  | some sz =>
    (HS_SUCCESS,
     ⟨(st.nextHandle, sz) :: st.scratches, st.streams, st.nextHandle + 1⟩,
     st.nextHandle)

/-- Modelled from the spec: `hs_free_scratch` (external engine call)
releases a live region. -/
def hs_free_scratch (h : Nat) (st : EngineState) : Int × EngineState :=
  match findAssoc h st.scratches with
  | none => (HS_INVALID, st)
  | some _ =>
    (HS_SUCCESS, ⟨removeAssoc h st.scratches, st.streams, st.nextHandle⟩)

/-- Modelled from the spec: `hs_open_stream` (external engine call)
allocates fresh stream state bound to the database, with no match
history. -/
def hs_open_stream (db : StreamingDatabase) (flags : Nat) (st : EngineState) :
    Int × EngineState × Nat :=
  (HS_SUCCESS,
   ⟨st.scratches, (st.nextHandle, (db, [])) :: st.streams, st.nextHandle + 1⟩,
   st.nextHandle)

/-- Modelled from the spec: `hs_scan_stream` (external engine call) feeds
the next `length`-byte chunk of `data` to a live stream, delivering the
newly discovered matches; the fed history advances by the chunk.  Handing it
a closed (freed) stream handle is undefined behavior: no defined result. -/
def hs_scan_stream (sid : Nat) (data : List Nat) (length : Nat)
    (handler : Option (MatchEvent → Int)) (st : EngineState) :
    Option (Int × EngineState × List MatchEvent) :=
  match findAssoc sid st.streams with
  | none => none
  | some e =>
    some ((hsDeliver handler (e.1.streamMatches e.2 (data.take length))).1,
          ⟨st.scratches, setAssoc sid (e.1, e.2 ++ data.take length) st.streams,
           st.nextHandle⟩,
          (hsDeliver handler (e.1.streamMatches e.2 (data.take length))).2)

/-- Modelled from the spec: `hs_close_stream` (external engine call) flushes
the pending matches of a live stream through the handler and then frees the
stream.  Closing an already freed stream is undefined behavior. -/
def hs_close_stream (sid : Nat) (handler : Option (MatchEvent → Int))
    (st : EngineState) : Option (Int × EngineState × List MatchEvent) :=
  match findAssoc sid st.streams with
  | none => none
  | some e =>
    some ((hsDeliver handler (e.1.pending e.2)).1,
          ⟨st.scratches, removeAssoc sid st.streams, st.nextHandle⟩,
          (hsDeliver handler (e.1.pending e.2)).2)

/-- Modelled from the spec: `hs_reset_stream` (external engine call) flushes
pending matches and reinitializes a live stream to the empty history; the
handle stays valid. -/
def hs_reset_stream (sid : Nat) (flags : Nat)
    (handler : Option (MatchEvent → Int)) (st : EngineState) :
    Option (Int × EngineState × List MatchEvent) :=
  match findAssoc sid st.streams with
  | none => none
  | some e =>
    some ((hsDeliver handler (e.1.pending e.2)).1,
          ⟨st.scratches, setAssoc sid (e.1, []) st.streams, st.nextHandle⟩,
          (hsDeliver handler (e.1.pending e.2)).2)

/-- Modelled from the spec: `hs_copy_stream` (external engine call) forks a
fresh stream carrying an exact copy of the current progress state of a live
stream. -/
def hs_copy_stream (sid : Nat) (st : EngineState) : Int × EngineState × Nat :=
  match findAssoc sid st.streams with
  | none => (HS_INVALID, st, 0)
  | some e =>
    (HS_SUCCESS,
     ⟨st.scratches, (st.nextHandle, e) :: st.streams, st.nextHandle + 1⟩,
     st.nextHandle)

/-- A large enough region of scratch space to support a given database;
`RawScratch` holds the raw engine handle. -/
structure RawScratch where
  handle : Nat
deriving DecidableEq, Repr

/-- `RawScratch::alloc`: allocate a scratch space for a database, surfacing
any failure as a recoverable error. -/
def RawScratch.alloc (db : Database) (st : EngineState) :
    Except Error RawScratch × EngineState :=
  let r := hs_alloc_scratch db none st
  match check_hs_error r.1 with
  | Except.error e => (Except.error e, r.2.1)
  | Except.ok _ => (Except.ok ⟨r.2.2⟩, r.2.1)

/-- `Scratch::size` for `RawScratch`: report the byte footprint through
`hs_scratch_size`, surfacing failures as recoverable errors. -/
def RawScratch.size (s : RawScratch) (st : EngineState) :
    Except Error Nat × EngineState :=
  let r := hs_scratch_size s.handle st
  match check_hs_error r.1.1 with
  | Except.error e => (Except.error e, r.2)
  | Except.ok _ => (Except.ok r.1.2, r.2)

/-- `Scratch::realloc` for `RawScratch`: grow the scratch in place by
handing the live handle back to `hs_alloc_scratch`, surfacing failures as
recoverable errors. -/
def RawScratch.realloc (s : RawScratch) (db : Database) (st : EngineState) :
    Except Error RawScratch × EngineState :=
  let r := hs_alloc_scratch db (some s.handle) st
  match check_hs_error r.1 with
  | Except.error e => (Except.error e, r.2.1)
  | Except.ok _ => (Except.ok ⟨r.2.2⟩, r.2.1)

/-- `Clone` for `RawScratch`: clone through `hs_clone_scratch`; any failure
is asserted fatal (process abort), never an error value. -/
def RawScratch.clone (s : RawScratch) (st : EngineState) :
    Outcome RawScratch × EngineState :=
  let r := hs_clone_scratch s.handle st
  match assert_hs_error r.1 with
  | Outcome.ok _ => (Outcome.ok ⟨r.2.2⟩, r.2.1)
  | Outcome.err e => (Outcome.err e, r.2.1)
  | Outcome.abort => (Outcome.abort, r.2.1)

/-- `Drop` for `RawScratch`: release through `hs_free_scratch`; any failure
is asserted fatal. -/
def RawScratch.drop (s : RawScratch) (st : EngineState) :
    Outcome Unit × EngineState :=
  let r := hs_free_scratch s.handle st
  (assert_hs_error r.1, r.2)

/-- `BlockScanner::scan` for `BlockDatabase`: wrap the optional callback,
hand the buffer and its length cast to `u32` to `hs_scan`, and map the
return code through `check_hs_error`.  The second component records the
callback invocations made during the call. -/
def BlockDatabase.scan (db : BlockDatabase) (data : List Nat)
    (scratch : RawScratch) (handler : Option MatchEventCallback) :
    Except Error Unit × List MatchEvent :=
  let r := hs_scan db data (u32cast data.length) (wrap_match_event_handler handler)
  (check_hs_error r.1, r.2)

/-- `VectoredScanner::scan` for `VectoredDatabase`: collect, in supplied
order, each buffer (its start pointer in the source) and its length cast to
`u32`, and hand both sequences together with the buffer count cast to `u32`
(`data.len() as u32`) to `hs_scan_vector`. -/
def VectoredDatabase.scan (db : VectoredDatabase) (data : List (List Nat))
    (scratch : RawScratch) (handler : Option MatchEventCallback) :
    Except Error Unit × List MatchEvent :=
  let r := hs_scan_vector db data (data.map fun d => u32cast d.length)
             (u32cast data.length) (wrap_match_event_handler handler)
  (check_hs_error r.1, r.2)

/-- A pattern-matching state maintained across multiple blocks of target
data; `RawStream` holds the raw engine handle.  The source gives it no
`Drop` implementation. -/
structure RawStream where
  handle : Nat
deriving DecidableEq, Repr

/-- `StreamingScanner::open_stream` for `StreamingDatabase`: open a fresh
stream, surfacing failures as recoverable errors. -/
def StreamingDatabase.open_stream (db : StreamingDatabase) (flags : Nat)
    (st : EngineState) : Except Error RawStream × EngineState :=
  let r := hs_open_stream db flags st
  match check_hs_error r.1 with
  | Except.error e => (Except.error e, r.2.1)
  | Except.ok _ => (Except.ok ⟨r.2.2⟩, r.2.1)

/-- `Stream::close` for `RawStream`: close through `hs_close_stream`.  The
handle is only borrowed (`&self` in the source), not consumed: the caller
keeps it after the call. -/
def RawStream.close (s : RawStream) (scratch : RawScratch)
    (handler : Option MatchEventCallback) (st : EngineState) :
    Option (Except Error Unit × EngineState × List MatchEvent) :=
  match hs_close_stream s.handle (wrap_match_event_handler handler) st with
  | none => none
  | some r => some (check_hs_error r.1, r.2.1, r.2.2)

/-- `Stream::reset` for `RawStream`. -/
def RawStream.reset (s : RawStream) (flags : Nat) (scratch : RawScratch)
    (handler : Option MatchEventCallback) (st : EngineState) :
    Option (Except Error Unit × EngineState × List MatchEvent) :=
  match hs_reset_stream s.handle flags (wrap_match_event_handler handler) st with
  | none => none
  | some r => some (check_hs_error r.1, r.2.1, r.2.2)

/-- `BlockScanner::scan` for `RawStream`: feed the next chunk with its
length cast to `u32` through `hs_scan_stream`. -/
def RawStream.scan (s : RawStream) (data : List Nat) (scratch : RawScratch)
    (handler : Option MatchEventCallback) (st : EngineState) :
    Option (Except Error Unit × EngineState × List MatchEvent) :=
  match hs_scan_stream s.handle data (u32cast data.length)
          (wrap_match_event_handler handler) st with
  | none => none
  | some r => some (check_hs_error r.1, r.2.1, r.2.2)

/-- `Clone` for `RawStream`: fork through `hs_copy_stream`; any failure is
asserted fatal. -/
def RawStream.clone (s : RawStream) (st : EngineState) :
    Outcome RawStream × EngineState :=
  let r := hs_copy_stream s.handle st
  match assert_hs_error r.1 with
  | Outcome.ok _ => (Outcome.ok ⟨r.2.2⟩, r.2.1)
  | Outcome.err e => (Outcome.err e, r.2.1)
  | Outcome.abort => (Outcome.abort, r.2.1)

/-- `RawStream` has no `Drop` implementation in the source: letting the
handle go out of scope runs no engine call and leaves the engine state
unchanged. -/
def RawStream.scopeExit (s : RawStream) (st : EngineState) : EngineState := st

/-- The early-termination contract of a call that delivered the invocation
list `r.2` and returned `r.1`: if the predicate answered true on some
invocation the call failed with `ScanTerminated`, and no invocation happened
after one on which the predicate answered true. -/
def TermStop (cb : MatchEventCallback) (r : Except Error Unit × List MatchEvent) : Prop :=
  ((∃ e ∈ r.2, cbHit cb e = true) → r.1 = Except.error Error.ScanTerminated) ∧
  (∀ pre e post, r.2 = pre ++ e :: post → cbHit cb e = true → post = [])

/-- Modelled from the spec: the match list of a database compiled for a
literal pattern with start-of-match tracking — one event per occurrence of
the pattern, with `from` its start offset and `to` its end offset. -/
def literalMatches (pat : List Nat) (data : List Nat) : List MatchEvent :=
  (List.range (data.length + 1)).filterMap fun i =>
    if (data.drop i).take pat.length = pat then some ⟨0, i, i + pat.length, 0⟩
    else none

def fooBytes : List Nat := [102, 111, 111]

def testBytes : List Nat := [116, 101, 115, 116]

def barBytes : List Nat := [98, 97, 114]

def db0 : Database := ⟨2385, by decide⟩

def vdbTest : VectoredDatabase := { toDatabase := db0, matchesOf := literalMatches testBytes }

def bdbTwo : BlockDatabase := { toDatabase := db0, matchesOf := fun _ => [⟨0, 0, 1, 0⟩, ⟨1, 2, 3, 0⟩] }

def bdbOne : BlockDatabase := { toDatabase := db0, matchesOf := fun _ => [⟨0, 4, 8, 0⟩] }

def sdb0 : StreamingDatabase := { toDatabase := db0, streamMatches := fun _ _ => [], pending := fun _ => [⟨0, 0, 7, 0⟩] }

def cbFalse : MatchEventCallback := fun _ _ _ _ => false

def cbTrue : MatchEventCallback := fun _ _ _ _ => true

def scratch0 : RawScratch := ⟨0⟩

def st0 : EngineState := ⟨[], [], 0⟩

def stS : EngineState := ⟨[(0, 2385)], [], 1⟩

def stStream : EngineState := ⟨[], [(0, (sdb0, []))], 1⟩

/-- A null handler is never invoked and the scan reports success. -/
theorem hsDeliver_none (ms : List MatchEvent) : hsDeliver none ms = (HS_SUCCESS, []) := by
  cases ms <;> rfl

theorem check_hs_error_success : check_hs_error HS_SUCCESS = Except.ok () := rfl

theorem check_hs_error_invalid : check_hs_error HS_INVALID = Except.error Error.Invalid := rfl

theorem check_hs_error_terminated :
    check_hs_error HS_SCAN_TERMINATED = Except.error Error.ScanTerminated := rfl

theorem assert_hs_error_success : assert_hs_error HS_SUCCESS = Outcome.ok () := rfl

theorem assert_hs_error_invalid : assert_hs_error HS_INVALID = Outcome.abort := rfl

theorem mec_eq_zero (cb : MatchEventCallback) (e : MatchEvent) :
    match_event_callback cb e = 0 ↔ cbHit cb e = false := by
  cases h : cbHit cb e <;> simp [match_event_callback, h, TRUE, FALSE]

theorem findAssoc_setAssoc_self {α : Type} (k : Nat) (v w : α) (l : List (Nat × α))
    (h : findAssoc k l = some w) : findAssoc k (setAssoc k v l) = some v := by
  induction l with
  | nil => simp [findAssoc] at h
  | cons p rest ih =>
    by_cases hp : p.1 = k
    · simp [findAssoc, setAssoc, hp]
    · simp [findAssoc, setAssoc, hp] at h ⊢
      exact ih h

theorem findAssoc_setAssoc_ne {α : Type} (k k2 : Nat) (v : α) (l : List (Nat × α))
    (h : k2 ≠ k) : findAssoc k2 (setAssoc k v l) = findAssoc k2 l := by
  induction l with
  | nil => rfl
  | cons p rest ih =>
    by_cases hp : p.1 = k
    · simp [setAssoc, findAssoc, hp, Ne.symm h, ih]
    · by_cases hq : p.1 = k2 <;> simp [setAssoc, findAssoc, hp, hq, h, ih]

theorem findAssoc_removeAssoc_self {α : Type} (k : Nat) (l : List (Nat × α)) :
    findAssoc k (removeAssoc k l) = none := by
  induction l with
  | nil => rfl
  | cons p rest ih =>
    by_cases hp : p.1 = k <;> simp [removeAssoc, findAssoc, hp, ih]

theorem findAssoc_removeAssoc_ne {α : Type} (k k2 : Nat) (l : List (Nat × α))
    (h : k2 ≠ k) : findAssoc k2 (removeAssoc k l) = findAssoc k2 l := by
  induction l with
  | nil => rfl
  | cons p rest ih =>
    by_cases hp : p.1 = k
    · simp [removeAssoc, findAssoc, hp, Ne.symm h, ih]
    · by_cases hq : p.1 = k2 <;> simp [removeAssoc, findAssoc, hp, hq, h, ih]

theorem findAssoc_mem {α : Type} {k : Nat} {v : α} {l : List (Nat × α)}
    (h : findAssoc k l = some v) : (k, v) ∈ l := by
  induction l with
  | nil => simp [findAssoc] at h
  | cons p rest ih =>
    by_cases hp : p.1 = k
    · simp [findAssoc, hp] at h
      exact List.mem_cons.mpr (Or.inl (Prod.ext_iff.mpr ⟨hp.symm, h.symm⟩))
    · simp [findAssoc, hp] at h
      exact List.mem_cons.mpr (Or.inr (ih h))

/-- Core early-termination property of the delivery loop with a wrapped
caller callback. -/
theorem termStop_deliver (cb : MatchEventCallback) (ms : List MatchEvent) :
    TermStop cb
      (check_hs_error (hsDeliver (some (match_event_callback cb)) ms).1,
       (hsDeliver (some (match_event_callback cb)) ms).2) := by
  induction ms with
  | nil =>
    constructor
    · intro h
      simp [hsDeliver] at h
    · intro pre e post h
      simp [hsDeliver] at h
  | cons m rest ih =>
    by_cases hm : cbHit cb m
    · have hz : ¬ match_event_callback cb m = 0 := by
        simp [mec_eq_zero, hm]
      constructor
      · intro _
        simp [hsDeliver, hz, check_hs_error_terminated]
      · intro pre e post h hhit
        simp only [hsDeliver, hz, if_neg] at h
        rcases pre with _ | ⟨q, pre⟩
        · simp at h
          exact h.2
        · simp at h
    · have hz : match_event_callback cb m = 0 := (mec_eq_zero cb m).mpr (by simpa using hm)
      constructor
      · intro h
        simp only [hsDeliver, hz, if_pos] at h ⊢
        rcases h with ⟨e, he, hhit⟩
        rcases List.mem_cons.mp he with rfl | he2
        · exact absurd hhit (by simpa using hm)
        · exact ih.1 ⟨e, he2, hhit⟩
      · intro pre e post h hhit
        simp only [hsDeliver, hz, if_pos] at h
        rcases pre with _ | ⟨q, pre⟩
        · simp at h
          rcases h with ⟨rfl, _⟩
          exact absurd hhit (by simpa using hm)
        · simp at h
          exact ih.2 pre e post h.2 hhit

/-- C1 counterexample: the claim as stated is false on the code.  With the
predicate that returns false on every invocation (in particular on its
first), block-scanning a database that discovers two matches succeeds
(instead of failing with `ScanTerminated`) and the predicate is invoked
twice (instead of exactly once): the adapter hands `FALSE` (zero) to the
engine, and the engine only halts on a non-zero return. -/
theorem spec_c1_counterexample :
    cbHit cbFalse ⟨0, 0, 1, 0⟩ = false ∧
    (BlockDatabase.scan bdbTwo [] scratch0 (some cbFalse)).1 = Except.ok () ∧
    (BlockDatabase.scan bdbTwo [] scratch0 (some cbFalse)).2 =
      [⟨0, 0, 1, 0⟩, ⟨1, 2, 3, 0⟩] ∧
    (BlockDatabase.scan bdbTwo [] scratch0 (some cbFalse)).1 ≠
      Except.error Error.ScanTerminated := by
  refine ⟨rfl, rfl, rfl, ?_⟩
  intro h
  exact Except.noConfusion h

/-- C1 (amended): for every block scan, vectored scan, stream scan, stream
reset and stream close supplied with a callback predicate, if the predicate
returns true on some invocation then the enclosing call fails with the
`ScanTerminated` error and the predicate is not invoked again within that
call; in particular a predicate that returns true on its first invocation is
invoked exactly once. -/
theorem spec_c1_amended (cb : MatchEventCallback) :
    (∀ (db : BlockDatabase) (data : List Nat) (scratch : RawScratch),
       TermStop cb (BlockDatabase.scan db data scratch (some cb))) ∧
    (∀ (db : VectoredDatabase) (data : List (List Nat)) (scratch : RawScratch),
       TermStop cb (VectoredDatabase.scan db data scratch (some cb))) ∧
    (∀ (s : RawStream) (data : List Nat) (scratch : RawScratch) (st : EngineState)
       (r : Except Error Unit) (st2 : EngineState) (inv : List MatchEvent),
       RawStream.scan s data scratch (some cb) st = some (r, st2, inv) →
       TermStop cb (r, inv)) ∧
    (∀ (s : RawStream) (scratch : RawScratch) (st : EngineState)
       (r : Except Error Unit) (st2 : EngineState) (inv : List MatchEvent),
       RawStream.close s scratch (some cb) st = some (r, st2, inv) →
       TermStop cb (r, inv)) ∧
    (∀ (s : RawStream) (flags : Nat) (scratch : RawScratch) (st : EngineState)
       (r : Except Error Unit) (st2 : EngineState) (inv : List MatchEvent),
       RawStream.reset s flags scratch (some cb) st = some (r, st2, inv) →
       TermStop cb (r, inv)) := by
  refine ⟨?_, ?_, ?_, ?_, ?_⟩
  · intro db data scratch
    exact termStop_deliver cb (db.matchesOf (data.take (u32cast data.length)))
  · intro db data scratch
    exact termStop_deliver cb
      (db.matchesOf ((((data.zip (data.map fun d => u32cast d.length)).take
        (u32cast data.length)).map fun bl => bl.1.take bl.2).flatten))
  · intro s data scratch st r st2 inv h
    cases hf : findAssoc s.handle st.streams with
    | none => simp [RawStream.scan, hs_scan_stream, hf] at h
    | some e =>
      simp only [RawStream.scan, hs_scan_stream, hf, Option.some.injEq,
        Prod.mk.injEq] at h
      obtain ⟨hr, _, hinv⟩ := h
      subst hr
      subst hinv
      exact termStop_deliver cb (e.1.streamMatches e.2 (data.take (u32cast data.length)))
  · intro s scratch st r st2 inv h
    cases hf : findAssoc s.handle st.streams with
    | none => simp [RawStream.close, hs_close_stream, hf] at h
    | some e =>
      simp only [RawStream.close, hs_close_stream, hf, Option.some.injEq,
        Prod.mk.injEq] at h
      obtain ⟨hr, _, hinv⟩ := h
      subst hr
      subst hinv
      exact termStop_deliver cb (e.1.pending e.2)
  · intro s flags scratch st r st2 inv h
    cases hf : findAssoc s.handle st.streams with
    | none => simp [RawStream.reset, hs_reset_stream, hf] at h
    | some e =>
      simp only [RawStream.reset, hs_reset_stream, hf, Option.some.injEq,
        Prod.mk.injEq] at h
      obtain ⟨hr, _, hinv⟩ := h
      subst hr
      subst hinv
      exact termStop_deliver cb (e.1.pending e.2)

/-- C1 witness: the amended theorem applied to a concrete stream close whose
pending matches trigger the predicate, discharging the hypothesis by
evaluation. -/
theorem spec_c1_witness :
    TermStop cbTrue (Except.error Error.ScanTerminated, [⟨0, 0, 7, 0⟩]) :=
  (spec_c1_amended cbTrue).2.2.2.1 ⟨0⟩ scratch0 stStream
    (Except.error Error.ScanTerminated) ⟨[], [], 1⟩ [⟨0, 0, 7, 0⟩] rfl

/-- C2: with no callback supplied the wrapper passes a null handler and a
null context to the engine, so a block, vectored or (live-)stream scan
returns success, never `ScanTerminated`, and no callback is ever invoked
(the recorded invocation list is empty). -/
theorem spec_c2_no_callback :
    (∀ (db : BlockDatabase) (data : List Nat) (scratch : RawScratch),
       BlockDatabase.scan db data scratch none = (Except.ok (), [])) ∧
    (∀ (db : VectoredDatabase) (data : List (List Nat)) (scratch : RawScratch),
       VectoredDatabase.scan db data scratch none = (Except.ok (), [])) ∧
    (∀ (s : RawStream) (st : EngineState) (e : StreamingDatabase × List Nat)
       (data : List Nat) (scratch : RawScratch),
       findAssoc s.handle st.streams = some e →
       ∃ st2, RawStream.scan s data scratch none st = some (Except.ok (), st2, [])) := by
  refine ⟨?_, ?_, ?_⟩
  · intro db data scratch
    simp [BlockDatabase.scan, hs_scan, wrap_match_event_handler, hsDeliver_none,
      check_hs_error_success]
  · intro db data scratch
    simp [VectoredDatabase.scan, hs_scan_vector, wrap_match_event_handler,
      hsDeliver_none, check_hs_error_success]
  · intro s st e data scratch hf
    exact ⟨⟨st.scratches,
      setAssoc s.handle (e.1, e.2 ++ data.take (u32cast data.length)) st.streams,
      st.nextHandle⟩,
      by simp [RawStream.scan, hs_scan_stream, wrap_match_event_handler, hf,
        hsDeliver_none, check_hs_error_success]⟩

/-- C2 witness: scanning a chunk into a concrete live stream with no
callback succeeds with no invocation. -/
theorem spec_c2_witness :
    ∃ st2, RawStream.scan ⟨0⟩ fooBytes scratch0 none stStream =
      some (Except.ok (), st2, []) :=
  spec_c2_no_callback.2.2 ⟨0⟩ stStream (sdb0, []) fooBytes scratch0 rfl

/-- C3: after a close that returns, the stream handle is still in the
caller's hands (close only borrows it) and the engine-side stream is freed,
so every further operation through that handle reaches the engine with a
freed stream: the model assigns it no defined result at all — undefined
behavior, not the guaranteed error the claim asserts. -/
theorem spec_c3_use_after_close :
    ∀ (s : RawStream) (scratch : RawScratch) (handler : Option MatchEventCallback)
      (st : EngineState) (r : Except Error Unit) (st2 : EngineState)
      (inv : List MatchEvent),
      RawStream.close s scratch handler st = some (r, st2, inv) →
      (∀ data scratch2 handler2,
         RawStream.scan s data scratch2 handler2 st2 = none) ∧
      (∀ scratch2 handler2, RawStream.close s scratch2 handler2 st2 = none) ∧
      (∀ flags scratch2 handler2,
         RawStream.reset s flags scratch2 handler2 st2 = none) := by
  intro s scratch handler st r st2 inv h
  cases hf : findAssoc s.handle st.streams with
  | none => simp [RawStream.close, hs_close_stream, hf] at h
  | some e =>
    simp only [RawStream.close, hs_close_stream, hf, Option.some.injEq,
      Prod.mk.injEq] at h
    obtain ⟨_, hst, _⟩ := h
    subst hst
    have hnone : findAssoc s.handle (removeAssoc s.handle st.streams) = none :=
      findAssoc_removeAssoc_self s.handle st.streams
    refine ⟨?_, ?_, ?_⟩ <;> intros <;>
      simp [RawStream.scan, hs_scan_stream, RawStream.close, hs_close_stream,
        RawStream.reset, hs_reset_stream, hnone]

/-- C3 witness: on a concrete opened-then-closed stream, a further scan has
no defined result. -/
theorem spec_c3_witness :
    RawStream.scan ⟨0⟩ fooBytes scratch0 none ⟨[], [], 1⟩ = none :=
  (spec_c3_use_after_close ⟨0⟩ scratch0 none stStream (Except.ok ())
    ⟨[], [], 1⟩ [] rfl).1 fooBytes scratch0 none

/-- C4: a successful realloc of a live scratch against a database grows it
to the maximum of its current size and the database's requirement: the size
never decreases, afterwards it is at least the requirement, and if the
scratch was already sufficient the observable size is unchanged. -/
theorem spec_c4_realloc :
    ∀ (s : RawScratch) (db : Database) (st : EngineState) (sz : Nat),
      findAssoc s.handle st.scratches = some sz →
      ∃ st2, RawScratch.realloc s db st = (Except.ok s, st2) ∧
        (RawScratch.size s st2).1 = Except.ok (max sz db.scratchReq) ∧
        sz ≤ max sz db.scratchReq ∧
        db.scratchReq ≤ max sz db.scratchReq ∧
        (db.scratchReq ≤ sz →
          (RawScratch.size s st2).1 = (RawScratch.size s st).1) := by
  intro s db st sz hf
  have hfs := findAssoc_setAssoc_self s.handle (max sz db.scratchReq) sz
    st.scratches hf
  refine ⟨⟨setAssoc s.handle (max sz db.scratchReq) st.scratches, st.streams,
    st.nextHandle⟩, ?_, ?_, le_max_left _ _, le_max_right _ _, ?_⟩
  · simp [RawScratch.realloc, hs_alloc_scratch, hf, check_hs_error_success]
  · simp [RawScratch.size, hs_scratch_size, hfs, check_hs_error_success]
  · intro hle
    have hmax : max sz db.scratchReq = sz := max_eq_left hle
    have hfs2 := findAssoc_setAssoc_self s.handle sz sz st.scratches hf
    simp [RawScratch.size, hs_scratch_size, hmax, hfs2, hf, check_hs_error_success]

/-- C4 witness: reallocating a concrete live scratch against a database of
equal requirement is a no-op on the observable size. -/
theorem spec_c4_witness :
    ∃ st2, RawScratch.realloc scratch0 db0 stS = (Except.ok scratch0, st2) ∧
      (RawScratch.size scratch0 st2).1 = Except.ok (max 2385 db0.scratchReq) ∧
      2385 ≤ max 2385 db0.scratchReq ∧
      db0.scratchReq ≤ max 2385 db0.scratchReq ∧
      (db0.scratchReq ≤ 2385 →
        (RawScratch.size scratch0 st2).1 = (RawScratch.size scratch0 stS).1) :=
  spec_c4_realloc scratch0 db0 stS 2385 rfl

/-- Buffers cut to their cast lengths are unchanged when every buffer is
shorter than 2^32 bytes. -/
theorem cut_buffers_eq (data : List (List Nat))
    (h : ∀ d ∈ data, d.length < 2 ^ 32) :
    ((data.zip (data.map fun d => u32cast d.length)).map fun bl => bl.1.take bl.2)
      = data := by
  induction data with
  | nil => rfl
  | cons d rest ih =>
    have hd : u32cast d.length = d.length :=
      Nat.mod_eq_of_lt (h d (List.mem_cons_self d rest))
    have hrest := ih fun x hx => h x (List.mem_cons_of_mem d hx)
    simp only [List.map_cons, List.zip_cons_cons, hd, List.take_length, hrest]

/-- A literal-pattern database reports the occurrence of the pattern at the
head of the scanned data. -/
theorem literalMatches_head (pat rest : List Nat) :
    MatchEvent.mk 0 0 (0 + pat.length) 0 ∈ literalMatches pat (pat ++ rest) := by
  unfold literalMatches
  apply List.mem_filterMap.mpr
  refine ⟨0, List.mem_range.mpr (Nat.succ_pos _), ?_⟩
  show (if ((pat ++ rest).drop 0).take pat.length = pat
      then some (MatchEvent.mk 0 0 (0 + pat.length) 0) else none) =
    some (MatchEvent.mk 0 0 (0 + pat.length) 0)
  rw [List.drop_zero, List.take_left pat rest]
  simp

/-- C5 counterexample: the claim as stated is false on the code for buffer
sequences of length 2^32 and beyond, because the source casts the buffer
count to `u32` (`data.len() as u32`).  A sequence of 2^32 copies of "test"
is handed to the engine with count zero: the scan succeeds having reported
no match at all, although the logical concatenation of the buffers contains
a match (from 0, to 4). -/
theorem spec_c5_counterexample :
    VectoredDatabase.scan vdbTest (List.replicate (2 ^ 32) testBytes) scratch0
        (some cbFalse) = (Except.ok (), []) ∧
    MatchEvent.mk 0 0 4 0 ∈
      vdbTest.matchesOf (List.replicate (2 ^ 32) testBytes).flatten := by
  constructor
  · have hcount : u32cast (List.replicate (2 ^ 32) testBytes).length = 0 := by
      rw [List.length_replicate]
      exact Nat.mod_self _
    simp only [VectoredDatabase.scan, hs_scan_vector, hcount, List.take_zero,
      List.map_nil, List.flatten_nil]
    rfl
  · have hm : vdbTest.matchesOf = literalMatches testBytes := rfl
    have hflat : (List.replicate (2 ^ 32) testBytes).flatten =
        testBytes ++ (List.replicate (2 ^ 32 - 1) testBytes).flatten := by
      have h32 : (2 : Nat) ^ 32 = (2 ^ 32 - 1) + 1 := by norm_num
      nth_rewrite 1 [h32]
      rw [List.replicate_succ, List.flatten_cons]
    have h4 : (4 : Nat) = 0 + testBytes.length := by simp [testBytes]
    rw [hm, hflat, h4]
    exact literalMatches_head testBytes _

/-- C5 (amended): for every ordered sequence of fewer than 2^32 buffers,
each shorter than 2^32 bytes, the vectored scan passes each buffer's start
pointer and byte length to the engine in exactly the supplied order (the
buffer count, like each buffer length, is cast to `u32`), and matches are
reported with offsets computed over the logical concatenation of the
buffers; concretely, scanning "foo", "test", "bar" against a literal
database for "test" yields exactly one match invocation with from 3 and
to 7, and the call succeeds. -/
theorem spec_c5_vectored :
    (∀ (db : VectoredDatabase) (data : List (List Nat)) (scratch : RawScratch)
       (handler : Option MatchEventCallback),
       data.length < 2 ^ 32 →
       (∀ d ∈ data, d.length < 2 ^ 32) →
       VectoredDatabase.scan db data scratch handler =
         (check_hs_error
            (hsDeliver (wrap_match_event_handler handler)
              (db.matchesOf data.flatten)).1,
          (hsDeliver (wrap_match_event_handler handler)
            (db.matchesOf data.flatten)).2)) ∧
    (VectoredDatabase.scan vdbTest [fooBytes, testBytes, barBytes] scratch0
        (some cbFalse)).2 = [⟨0, 3, 7, 0⟩] ∧
    (VectoredDatabase.scan vdbTest [fooBytes, testBytes, barBytes] scratch0
        (some cbFalse)).1 = Except.ok () := by
  refine ⟨?_, rfl, rfl⟩
  intro db data scratch handler hcount h
  have hc : u32cast data.length = data.length := Nat.mod_eq_of_lt hcount
  have htake : (data.zip (data.map fun d => u32cast d.length)).take
      (u32cast data.length) = data.zip (data.map fun d => u32cast d.length) := by
    apply List.take_of_length_le
    simp [List.length_zip, hc]
  simp only [VectoredDatabase.scan, hs_scan_vector]
  rw [htake, cut_buffers_eq data h]

/-- C5 witness: the general conjunct applied to the concrete empty buffer
sequence, discharging both bounds by evaluation. -/
theorem spec_c5_witness :
    VectoredDatabase.scan vdbTest [] scratch0 none =
      (check_hs_error
         (hsDeliver (wrap_match_event_handler none)
           (vdbTest.matchesOf (List.flatten []))).1,
       (hsDeliver (wrap_match_event_handler none)
         (vdbTest.matchesOf (List.flatten []))).2) :=
  spec_c5_vectored.1 vdbTest [] scratch0 none (by norm_num) (by simp)

/-- C7: allocating scratch for a database succeeds with a fresh handle whose
reported size equals the database's scratch requirement, which is strictly
positive; two successful allocations against the same database report equal
sizes; and the size query has no side effect on the engine state. -/
theorem spec_c7_alloc :
    (∀ (db : Database) (st : EngineState),
       RawScratch.alloc db st =
         (Except.ok ⟨st.nextHandle⟩,
          ⟨(st.nextHandle, db.scratchReq) :: st.scratches, st.streams,
           st.nextHandle + 1⟩) ∧
       (RawScratch.size ⟨st.nextHandle⟩
          (⟨(st.nextHandle, db.scratchReq) :: st.scratches, st.streams,
            st.nextHandle + 1⟩ : EngineState)).1 = Except.ok db.scratchReq ∧
       0 < db.scratchReq) ∧
    (∀ (db : Database) (st st2 : EngineState) (s s2 : RawScratch)
       (st3 st4 : EngineState),
       RawScratch.alloc db st = (Except.ok s, st3) →
       RawScratch.alloc db st2 = (Except.ok s2, st4) →
       (RawScratch.size s st3).1 = (RawScratch.size s2 st4).1) ∧
    (∀ (s : RawScratch) (st : EngineState), (RawScratch.size s st).2 = st) := by
  refine ⟨?_, ?_, ?_⟩
  · intro db st
    exact ⟨rfl,
      by simp [RawScratch.size, hs_scratch_size, findAssoc, check_hs_error_success],
      db.scratchReq_pos⟩
  · intro db st st2 s s2 st3 st4 h1 h2
    have e1 : RawScratch.alloc db st =
        (Except.ok ⟨st.nextHandle⟩,
         ⟨(st.nextHandle, db.scratchReq) :: st.scratches, st.streams,
          st.nextHandle + 1⟩) := rfl
    have e2 : RawScratch.alloc db st2 =
        (Except.ok ⟨st2.nextHandle⟩,
         ⟨(st2.nextHandle, db.scratchReq) :: st2.scratches, st2.streams,
          st2.nextHandle + 1⟩) := rfl
    rw [e1] at h1
    rw [e2] at h2
    simp only [Prod.mk.injEq, Except.ok.injEq] at h1 h2
    obtain ⟨hs1, hst1⟩ := h1
    obtain ⟨hs2, hst2⟩ := h2
    subst hs1
    subst hst1
    subst hs2
    subst hst2
    simp [RawScratch.size, hs_scratch_size, findAssoc, check_hs_error_success]
  · intro s st
    cases hf : findAssoc s.handle st.scratches <;>
      simp [RawScratch.size, hs_scratch_size, hf, check_hs_error_success,
        check_hs_error_invalid]

/-- C7 witness: two concrete allocations against the same database report
equal sizes. -/
theorem spec_c7_witness :
    (RawScratch.size ⟨0⟩ ⟨[(0, 2385)], [], 1⟩).1 =
      (RawScratch.size ⟨1⟩ ⟨[(1, 2385), (0, 2385)], [], 2⟩).1 :=
  spec_c7_alloc.2.1 db0 st0 stS ⟨0⟩ ⟨1⟩ ⟨[(0, 2385)], [], 1⟩
    ⟨[(1, 2385), (0, 2385)], [], 2⟩ rfl rfl

/-- C9: failure of a scratch clone, a stream clone or a scratch release
never surfaces as a recoverable error value — these operations either
succeed or abort the process — whereas realloc reports its failure as a
recoverable error in its result. -/
theorem spec_c9_fatal :
    (∀ (s : RawScratch) (st : EngineState),
       (RawScratch.clone s st).1 = Outcome.abort ∨
       ∃ s2, (RawScratch.clone s st).1 = Outcome.ok s2) ∧
    (∀ (s : RawScratch) (st : EngineState) (e : Error),
       (RawScratch.clone s st).1 ≠ Outcome.err e) ∧
    (∀ (s : RawScratch) (st : EngineState) (e : Error),
       (RawScratch.drop s st).1 ≠ Outcome.err e) ∧
    (∀ (s : RawStream) (st : EngineState) (e : Error),
       (RawStream.clone s st).1 ≠ Outcome.err e) ∧
    (∀ (s : RawScratch) (db : Database) (st : EngineState),
       findAssoc s.handle st.scratches = none →
       (RawScratch.realloc s db st).1 = Except.error Error.Invalid) := by
  refine ⟨?_, ?_, ?_, ?_, ?_⟩
  · intro s st
    cases hf : findAssoc s.handle st.scratches with
    | none =>
      left
      simp [RawScratch.clone, hs_clone_scratch, hf, assert_hs_error_invalid]
    | some sz =>
      right
      exact ⟨⟨st.nextHandle⟩,
        by simp [RawScratch.clone, hs_clone_scratch, hf, assert_hs_error_success]⟩
  · intro s st e
    cases hf : findAssoc s.handle st.scratches <;>
      simp [RawScratch.clone, hs_clone_scratch, hf, assert_hs_error_success,
        assert_hs_error_invalid]
  · intro s st e
    cases hf : findAssoc s.handle st.scratches <;>
      simp [RawScratch.drop, hs_free_scratch, hf, assert_hs_error_success,
        assert_hs_error_invalid]
  · intro s st e
    cases hf : findAssoc s.handle st.streams <;>
      simp [RawStream.clone, hs_copy_stream, hf, assert_hs_error_success,
        assert_hs_error_invalid]
  · intro s db st hf
    simp [RawScratch.realloc, hs_alloc_scratch, hf, check_hs_error_invalid]

/-- C9 witness: a concrete clone is not an error value, and a concrete
failed realloc is a recoverable error value. -/
theorem spec_c9_witness :
    (RawScratch.clone scratch0 st0).1 ≠ Outcome.err Error.Invalid ∧
    (RawScratch.realloc ⟨5⟩ db0 st0).1 = Except.error Error.Invalid :=
  ⟨spec_c9_fatal.2.1 scratch0 st0 Error.Invalid,
   spec_c9_fatal.2.2.2.2 ⟨5⟩ db0 st0 rfl⟩

/-- C10: every block or streaming scan hands the engine the buffer length
reduced modulo 2^32 (the `as u32` cast): the engine scans exactly the first
`length mod 2^32` bytes, the history of a live stream advances by that
truncated chunk, and for every buffer no longer than 2^32 - 1 bytes the
exact length is passed (the buffer is scanned whole); a longer buffer is
silently truncated, never rejected. -/
theorem spec_c10_truncation :
    (∀ (db : BlockDatabase) (data : List Nat) (scratch : RawScratch)
       (handler : Option MatchEventCallback),
       BlockDatabase.scan db data scratch handler =
         (check_hs_error
            (hsDeliver (wrap_match_event_handler handler)
              (db.matchesOf (data.take (data.length % 2 ^ 32)))).1,
          (hsDeliver (wrap_match_event_handler handler)
            (db.matchesOf (data.take (data.length % 2 ^ 32)))).2)) ∧
    (∀ (s : RawStream) (st : EngineState) (e : StreamingDatabase × List Nat)
       (data : List Nat) (scratch : RawScratch)
       (handler : Option MatchEventCallback),
       findAssoc s.handle st.streams = some e →
       ∃ r st2 inv, RawStream.scan s data scratch handler st = some (r, st2, inv) ∧
         findAssoc s.handle st2.streams =
           some (e.1, e.2 ++ data.take (data.length % 2 ^ 32))) ∧
    (∀ data : List Nat, data.length ≤ 2 ^ 32 - 1 →
       data.take (data.length % 2 ^ 32) = data) := by
  refine ⟨?_, ?_, ?_⟩
  · intro db data scratch handler
    rfl
  · intro s st e data scratch handler hf
    refine ⟨check_hs_error (hsDeliver (wrap_match_event_handler handler)
        (e.1.streamMatches e.2 (data.take (u32cast data.length)))).1,
      ⟨st.scratches, setAssoc s.handle (e.1, e.2 ++ data.take (u32cast data.length))
        st.streams, st.nextHandle⟩,
      (hsDeliver (wrap_match_event_handler handler)
        (e.1.streamMatches e.2 (data.take (u32cast data.length)))).2, ?_, ?_⟩
    · simp [RawStream.scan, hs_scan_stream, hf]
    · have hset := findAssoc_setAssoc_self s.handle
        (e.1, e.2 ++ data.take (u32cast data.length)) e st.streams hf
      simpa [u32cast] using hset
  · intro data h
    have hlt : data.length < 2 ^ 32 := by omega
    rw [Nat.mod_eq_of_lt hlt, List.take_length]

/-- C10 witness: a concrete streaming scan advances the history by the
chunk cut to its cast length. -/
theorem spec_c10_witness :
    ∃ r st2 inv, RawStream.scan ⟨0⟩ fooBytes scratch0 none stStream =
        some (r, st2, inv) ∧
      findAssoc (0 : Nat) st2.streams =
        some (sdb0, [] ++ fooBytes.take (fooBytes.length % 2 ^ 32)) :=
  spec_c10_truncation.2.1 ⟨0⟩ stStream (sdb0, []) fooBytes scratch0 none rfl

/-- Closing a stream twice here reaches the engine with an already freed
stream: the second close has no defined result. -/
theorem close_close_none :
    ∀ (s : RawStream) (scratch : RawScratch) (handler : Option MatchEventCallback)
      (st : EngineState) (r : Except Error Unit) (st3 : EngineState)
      (inv : List MatchEvent) (scratch2 : RawScratch)
      (handler2 : Option MatchEventCallback),
      RawStream.close s scratch handler st = some (r, st3, inv) →
      RawStream.close s scratch2 handler2 st3 = none := by
  intro s scratch handler st r st3 inv scratch2 handler2 h
  cases hf : findAssoc s.handle st.streams with
  | none => simp [RawStream.close, hs_close_stream, hf] at h
  | some e =>
    simp only [RawStream.close, hs_close_stream, hf, Option.some.injEq,
      Prod.mk.injEq] at h
    obtain ⟨_, hst, _⟩ := h
    subst hst
    have hnone : findAssoc s.handle (removeAssoc s.handle st.streams) = none :=
      findAssoc_removeAssoc_self s.handle st.streams
    simp [RawStream.close, hs_close_stream, hnone]

/-- C8: the stream half of the claim fails on the code.  `RawStream` has no
release on scope exit — after a successful open, letting the handle go out
of scope leaves the engine-side stream alive — and close only borrows the
handle, so a double close is accepted by the types and reaches the engine
with a freed stream (undefined, not prevented). -/
theorem spec_c8_release :
    ∀ (db : StreamingDatabase) (flags : Nat) (st : EngineState) (s : RawStream)
      (st2 : EngineState),
      StreamingDatabase.open_stream db flags st = (Except.ok s, st2) →
      (RawStream.scopeExit s st2 = st2 ∧
       findAssoc s.handle (RawStream.scopeExit s st2).streams = some (db, [])) ∧
      (∀ (scratch : RawScratch) (handler : Option MatchEventCallback)
         (r : Except Error Unit) (st3 : EngineState) (inv : List MatchEvent)
         (scratch2 : RawScratch) (handler2 : Option MatchEventCallback),
         RawStream.close s scratch handler st2 = some (r, st3, inv) →
         RawStream.close s scratch2 handler2 st3 = none) := by
  intro db flags st s st2 h
  have e1 : StreamingDatabase.open_stream db flags st =
      (Except.ok ⟨st.nextHandle⟩,
       ⟨st.scratches, (st.nextHandle, (db, [])) :: st.streams,
        st.nextHandle + 1⟩) := rfl
  rw [e1] at h
  simp only [Prod.mk.injEq, Except.ok.injEq] at h
  obtain ⟨hs, hst⟩ := h
  subst hs
  subst hst
  refine ⟨⟨rfl, ?_⟩, ?_⟩
  · simp [RawStream.scopeExit, findAssoc]
  · intro scratch handler r st3 inv scratch2 handler2 hclose
    exact close_close_none _ scratch handler _ r st3 inv scratch2 handler2 hclose

/-- C8 witness: after a concrete open, scope exit leaves the stream alive in
the engine, and a concrete double close has no defined result. -/
theorem spec_c8_witness :
    findAssoc (RawStream.mk 0).handle
      (RawStream.scopeExit ⟨0⟩ stStream).streams = some (sdb0, []) ∧
    RawStream.close ⟨0⟩ scratch0 none ⟨[], [], 1⟩ = none :=
  ⟨(spec_c8_release sdb0 0 st0 ⟨0⟩ stStream rfl).1.2,
   (spec_c8_release sdb0 0 st0 ⟨0⟩ stStream rfl).2 scratch0 none (Except.ok ())
     ⟨[], [], 1⟩ [] scratch0 none rfl⟩

/-- C6: cloning a scratch or a stream yields an independent fresh handle:
the clone starts with the original's observable state (size, match
history), and every subsequent operation through either handle — size,
realloc, clone and release for scratch; scan, reset, close, clone and scope
exit for streams — leaves the other handle's observable state unchanged. -/
theorem spec_c6_clone :
    (∀ (s : RawScratch) (st : EngineState) (sz : Nat),
       st.WF → findAssoc s.handle st.scratches = some sz →
       ∃ s2 st2, RawScratch.clone s st = (Outcome.ok s2, st2) ∧
         s2.handle ≠ s.handle ∧
         (RawScratch.size s2 st2).1 = Except.ok sz ∧
         (RawScratch.size s st2).1 = Except.ok sz ∧
         (∀ db : Database,
            (RawScratch.size s (RawScratch.realloc s2 db st2).2).1 =
              Except.ok sz) ∧
         (RawScratch.size s (RawScratch.drop s2 st2).2).1 = Except.ok sz ∧
         (RawScratch.size s (RawScratch.clone s2 st2).2).1 = Except.ok sz ∧
         (RawScratch.size s (RawScratch.size s2 st2).2).1 = Except.ok sz ∧
         (∀ db : Database,
            (RawScratch.size s2 (RawScratch.realloc s db st2).2).1 =
              Except.ok sz) ∧
         (RawScratch.size s2 (RawScratch.drop s st2).2).1 = Except.ok sz ∧
         (RawScratch.size s2 (RawScratch.clone s st2).2).1 = Except.ok sz ∧
         (RawScratch.size s2 (RawScratch.size s st2).2).1 = Except.ok sz) ∧
    (∀ (s : RawStream) (st : EngineState) (sdb : StreamingDatabase)
       (hist : List Nat),
       st.WF → findAssoc s.handle st.streams = some (sdb, hist) →
       ∃ s2 st2, RawStream.clone s st = (Outcome.ok s2, st2) ∧
         s2.handle ≠ s.handle ∧
         findAssoc s2.handle st2.streams = some (sdb, hist) ∧
         findAssoc s.handle st2.streams = some (sdb, hist) ∧
         (∀ (data : List Nat) (scratch : RawScratch)
            (handler : Option MatchEventCallback) (r : Except Error Unit)
            (st3 : EngineState) (inv : List MatchEvent),
            RawStream.scan s2 data scratch handler st2 = some (r, st3, inv) →
            findAssoc s.handle st3.streams = some (sdb, hist)) ∧
         (∀ (flags : Nat) (scratch : RawScratch)
            (handler : Option MatchEventCallback) (r : Except Error Unit)
            (st3 : EngineState) (inv : List MatchEvent),
            RawStream.reset s2 flags scratch handler st2 = some (r, st3, inv) →
            findAssoc s.handle st3.streams = some (sdb, hist)) ∧
         (∀ (scratch : RawScratch) (handler : Option MatchEventCallback)
            (r : Except Error Unit) (st3 : EngineState) (inv : List MatchEvent),
            RawStream.close s2 scratch handler st2 = some (r, st3, inv) →
            findAssoc s.handle st3.streams = some (sdb, hist)) ∧
         findAssoc s.handle (RawStream.clone s2 st2).2.streams =
           some (sdb, hist) ∧
         findAssoc s.handle (RawStream.scopeExit s2 st2).streams =
           some (sdb, hist) ∧
         (∀ (data : List Nat) (scratch : RawScratch)
            (handler : Option MatchEventCallback) (r : Except Error Unit)
            (st3 : EngineState) (inv : List MatchEvent),
            RawStream.scan s data scratch handler st2 = some (r, st3, inv) →
            findAssoc s2.handle st3.streams = some (sdb, hist)) ∧
         (∀ (flags : Nat) (scratch : RawScratch)
            (handler : Option MatchEventCallback) (r : Except Error Unit)
            (st3 : EngineState) (inv : List MatchEvent),
            RawStream.reset s flags scratch handler st2 = some (r, st3, inv) →
            findAssoc s2.handle st3.streams = some (sdb, hist)) ∧
         (∀ (scratch : RawScratch) (handler : Option MatchEventCallback)
            (r : Except Error Unit) (st3 : EngineState) (inv : List MatchEvent),
            RawStream.close s scratch handler st2 = some (r, st3, inv) →
            findAssoc s2.handle st3.streams = some (sdb, hist)) ∧
         findAssoc s2.handle (RawStream.clone s st2).2.streams =
           some (sdb, hist) ∧
         findAssoc s2.handle (RawStream.scopeExit s st2).streams =
           some (sdb, hist)) := by
  constructor
  · intro s st sz hWF hf
    have hmem := findAssoc_mem hf
    have hlt : s.handle < st.nextHandle := hWF.1 (s.handle, sz) hmem
    have hne : st.nextHandle ≠ s.handle := by omega
    have hne2 : st.nextHandle + 1 ≠ s.handle := by omega
    have hne3 : st.nextHandle + 1 ≠ st.nextHandle := by omega
    have h1 : findAssoc s.handle ((st.nextHandle, sz) :: st.scratches) =
        some sz := by
      simp [findAssoc, hne, hf]
    refine ⟨⟨st.nextHandle⟩,
      ⟨(st.nextHandle, sz) :: st.scratches, st.streams, st.nextHandle + 1⟩,
      ?_, hne, ?_, ?_, ?_, ?_, ?_, ?_, ?_, ?_, ?_, ?_⟩
    · simp [RawScratch.clone, hs_clone_scratch, hf, assert_hs_error_success]
    · simp [RawScratch.size, hs_scratch_size, findAssoc, check_hs_error_success]
    · simp [RawScratch.size, hs_scratch_size, h1, check_hs_error_success]
    · intro db
      have h2 := findAssoc_setAssoc_ne st.nextHandle s.handle
        (max sz db.scratchReq) ((st.nextHandle, sz) :: st.scratches)
        (Ne.symm hne)
      simp [RawScratch.realloc, RawScratch.size, hs_alloc_scratch,
        hs_scratch_size, findAssoc, check_hs_error_success, h2, hne, hf]
    · have h2 := findAssoc_removeAssoc_ne st.nextHandle s.handle
        ((st.nextHandle, sz) :: st.scratches) (Ne.symm hne)
      simp [RawScratch.drop, hs_free_scratch, RawScratch.size, hs_scratch_size,
        findAssoc, check_hs_error_success, h2, hne, hf]
    · simp [RawScratch.clone, hs_clone_scratch, RawScratch.size,
        hs_scratch_size, findAssoc, check_hs_error_success,
        assert_hs_error_success, hne, hne2, hf]
    · simp [RawScratch.size, hs_scratch_size, findAssoc,
        check_hs_error_success, hne, hf]
    · intro db
      have h4 := findAssoc_setAssoc_ne s.handle st.nextHandle
        (max sz db.scratchReq) ((st.nextHandle, sz) :: st.scratches) hne
      simp [RawScratch.realloc, RawScratch.size, hs_alloc_scratch,
        hs_scratch_size, findAssoc, check_hs_error_success, h4, hne, hf]
    · have h4 := findAssoc_removeAssoc_ne s.handle st.nextHandle
        ((st.nextHandle, sz) :: st.scratches) hne
      simp [RawScratch.drop, hs_free_scratch, RawScratch.size, hs_scratch_size,
        findAssoc, check_hs_error_success, h4, hne, hf]
    · simp [RawScratch.clone, hs_clone_scratch, RawScratch.size,
        hs_scratch_size, findAssoc, check_hs_error_success,
        assert_hs_error_success, hne, hne3, hf]
    · simp [RawScratch.size, hs_scratch_size, findAssoc,
        check_hs_error_success, hne, hf]
  · intro s st sdb hist hWF hf
    have hmem := findAssoc_mem hf
    have hlt : s.handle < st.nextHandle := hWF.2 (s.handle, (sdb, hist)) hmem
    have hne : st.nextHandle ≠ s.handle := by omega
    have hne2 : st.nextHandle + 1 ≠ s.handle := by omega
    have hne3 : st.nextHandle + 1 ≠ st.nextHandle := by omega
    have h1 : findAssoc s.handle ((st.nextHandle, (sdb, hist)) :: st.streams) =
        some (sdb, hist) := by
      simp [findAssoc, hne, hf]
    refine ⟨⟨st.nextHandle⟩,
      ⟨st.scratches, (st.nextHandle, (sdb, hist)) :: st.streams,
       st.nextHandle + 1⟩,
      ?_, hne, ?_, ?_, ?_, ?_, ?_, ?_, ?_, ?_, ?_, ?_, ?_, ?_⟩
    · simp [RawStream.clone, hs_copy_stream, hf, assert_hs_error_success]
    · simp [findAssoc]
    · exact h1
    · intro data scratch handler r st3 inv hscan
      simp only [RawStream.scan, hs_scan_stream, findAssoc, if_pos,
        Option.some.injEq, Prod.mk.injEq] at hscan
      obtain ⟨_, hst3, _⟩ := hscan
      subst hst3
      have h2 := findAssoc_setAssoc_ne st.nextHandle s.handle
        (sdb, hist ++ data.take (u32cast data.length))
        ((st.nextHandle, (sdb, hist)) :: st.streams) (Ne.symm hne)
      simp only [h2]
      exact h1
    · intro flags scratch handler r st3 inv hres
      simp only [RawStream.reset, hs_reset_stream, findAssoc, if_pos,
        Option.some.injEq, Prod.mk.injEq] at hres
      obtain ⟨_, hst3, _⟩ := hres
      subst hst3
      have h2 := findAssoc_setAssoc_ne st.nextHandle s.handle
        (sdb, ([] : List Nat)) ((st.nextHandle, (sdb, hist)) :: st.streams)
        (Ne.symm hne)
      simp only [h2]
      exact h1
    · intro scratch handler r st3 inv hclose
      simp only [RawStream.close, hs_close_stream, findAssoc, if_pos,
        Option.some.injEq, Prod.mk.injEq] at hclose
      obtain ⟨_, hst3, _⟩ := hclose
      subst hst3
      have h2 := findAssoc_removeAssoc_ne st.nextHandle s.handle
        ((st.nextHandle, (sdb, hist)) :: st.streams) (Ne.symm hne)
      simp only [h2]
      exact h1
    · simp [RawStream.clone, hs_copy_stream, findAssoc,
        assert_hs_error_success, hne, hne2, hf]
    · exact h1
    · intro data scratch handler r st3 inv hscan
      simp only [RawStream.scan, hs_scan_stream, h1, Option.some.injEq,
        Prod.mk.injEq] at hscan
      obtain ⟨_, hst3, _⟩ := hscan
      subst hst3
      have h4 := findAssoc_setAssoc_ne s.handle st.nextHandle
        (sdb, hist ++ data.take (u32cast data.length))
        ((st.nextHandle, (sdb, hist)) :: st.streams) hne
      simp only [h4]
      simp [findAssoc]
    · intro flags scratch handler r st3 inv hres
      simp only [RawStream.reset, hs_reset_stream, h1, Option.some.injEq,
        Prod.mk.injEq] at hres
      obtain ⟨_, hst3, _⟩ := hres
      subst hst3
      have h4 := findAssoc_setAssoc_ne s.handle st.nextHandle
        (sdb, ([] : List Nat)) ((st.nextHandle, (sdb, hist)) :: st.streams) hne
      simp only [h4]
      simp [findAssoc]
    · intro scratch handler r st3 inv hclose
      simp only [RawStream.close, hs_close_stream, h1, Option.some.injEq,
        Prod.mk.injEq] at hclose
      obtain ⟨_, hst3, _⟩ := hclose
      subst hst3
      have h4 := findAssoc_removeAssoc_ne s.handle st.nextHandle
        ((st.nextHandle, (sdb, hist)) :: st.streams) hne
      simp only [h4]
      simp [findAssoc]
    · simp [RawStream.clone, hs_copy_stream, findAssoc,
        assert_hs_error_success, hne, hne3, hf]
    · simp [RawStream.scopeExit, findAssoc]

/-- C6 witness: cloning a concrete scratch; every operation through either
handle leaves the other's reported size unchanged. -/
theorem spec_c6_witness :
    ∃ s2 st2, RawScratch.clone scratch0 stS = (Outcome.ok s2, st2) ∧
      s2.handle ≠ scratch0.handle ∧
      (RawScratch.size s2 st2).1 = Except.ok 2385 ∧
      (RawScratch.size scratch0 st2).1 = Except.ok 2385 ∧
      (∀ db : Database,
         (RawScratch.size scratch0 (RawScratch.realloc s2 db st2).2).1 =
           Except.ok 2385) ∧
      (RawScratch.size scratch0 (RawScratch.drop s2 st2).2).1 =
        Except.ok 2385 ∧
      (RawScratch.size scratch0 (RawScratch.clone s2 st2).2).1 =
        Except.ok 2385 ∧
      (RawScratch.size scratch0 (RawScratch.size s2 st2).2).1 =
        Except.ok 2385 ∧
      (∀ db : Database,
         (RawScratch.size s2 (RawScratch.realloc scratch0 db st2).2).1 =
           Except.ok 2385) ∧
      (RawScratch.size s2 (RawScratch.drop scratch0 st2).2).1 =
        Except.ok 2385 ∧
      (RawScratch.size s2 (RawScratch.clone scratch0 st2).2).1 =
        Except.ok 2385 ∧
      (RawScratch.size s2 (RawScratch.size scratch0 st2).2).1 =
        Except.ok 2385 :=
  spec_c6_clone.1 scratch0 stS 2385 (by simp [EngineState.WF, stS]) rfl
